import Mathlib

/-!
Verification of the HA_HEMS controller core against its specification.

The Python sources are shallowly embedded:
* timestamps are integers (seconds on a local timeline whose day 0 is a
  Monday and whose days are 86400 seconds, so `datetime.hour` is
  `(t / 3600) % 24`, `datetime.date()` is `t / 86400`, and
  `datetime.weekday() < 5` is `(t / 86400) % 7 < 5`);
* temperatures and COP values are rationals;
* Python `None` is `Option.none`; code that can raise maps into
  `Except String`;
* Python dicts are association lists in insertion order (CPython dicts
  preserve insertion order, which is what the code iterates in).
File reads and HTTP calls in the sources are modelled by passing the data
they would have produced as explicit arguments.
-/

namespace HVAC

/-- Python `round(x, 2)` rounds half to even on the scaled value.  The
binary floating point representation is abstracted to exact rationals. -/
def roundHalfEven (q : ℚ) : ℤ :=
  let f : ℤ := ⌊q⌋
  let r : ℚ := q - f
  if r < 1/2 then f
  else if 1/2 < r then f + 1
  else if f % 2 = 0 then f else f + 1

/-- Rounding to two decimal places, as `round(y, 2)` in the sources. -/
def round2 (q : ℚ) : ℚ := (roundHalfEven (q * 100) : ℚ) / 100

/-- From `controller/utils/utils.py`, `conditioning_ramping`: shortens the
ramp by 900 s, clamps the elapsed time, and otherwise interpolates
linearly, rounding every returned value to 2 decimals. -/
def conditioning_ramping (ramping_time elapsed_time : ℤ)
    (initial_value target_value : ℚ) : ℚ :=
  let ramping_time_short : ℤ := ramping_time - 900
  if elapsed_time ≤ 0 then round2 initial_value
  else if ramping_time_short ≤ elapsed_time then round2 target_value
  else
    let frac : ℚ := (elapsed_time : ℚ) / (ramping_time_short : ℚ)
    round2 (initial_value + (target_value - initial_value) * frac)

/-- One time slot of a schedule table.  In the sources a slot is the entry
`"ShMM-EhMM" -> {target_temp_C}` of the `time_slots` dict; the two hour
fields are the integers parsed from the range label, and the target is
`slot_data.get("target_temp_C")`, hence optional. -/
structure Slot where
  start_hour : ℤ
  end_hour : ℤ
  target_temp_C : Option ℚ
  deriving DecidableEq

/-- Python dict lookup returning `none` when the key is absent (association
list in insertion order). -/
def assocFind {α : Type} (l : List (String × α)) (k : String) : Option α :=
  match l with
  | [] => none
  | (k2, v) :: rest => if k2 = k then some v else assocFind rest k

/-- The slot loop of `get_target_from_schedule`: return the target of the
first slot whose range contains the hour, handling overnight ranges. -/
def scanSlots (current_hour : ℤ) : List Slot → Option ℚ
  | [] => none
  | s :: rest =>
    if s.start_hour < s.end_hour then
      if s.start_hour ≤ current_hour ∧ current_hour < s.end_hour then
        s.target_temp_C
      else scanSlots current_hour rest
    else
      if current_hour ≥ s.start_hour ∨ current_hour < s.end_hour then
        s.target_temp_C
      else scanSlots current_hour rest

/-- From `controller/utils/utils.py`, `get_target_from_schedule`.  The
schedule dict maps a day type to its `time_slots`; a missing day type
yields `none`. -/
def get_target_from_schedule (current_hour : ℤ) (current_day_type : String)
    (schedule : List (String × List Slot)) : Option ℚ :=
  match assocFind schedule current_day_type with
  | none => none
  | some time_slots => scanSlots current_hour time_slots

/-- The matching condition exactly as the claim words it: a slot
`start-end` matches the hour when `(start < end and start ≤ hour < end)`
or `(start ≥ end and (hour ≥ start or hour < end))`. -/
def specSlotMatches (h : ℤ) (s : Slot) : Prop :=
  (s.start_hour < s.end_hour ∧ s.start_hour ≤ h ∧ h < s.end_hour) ∨
    (s.start_hour ≥ s.end_hour ∧ (h ≥ s.start_hour ∨ h < s.end_hour))

instance (h : ℤ) (s : Slot) : Decidable (specSlotMatches h s) := by
  unfold specSlotMatches; infer_instance

/-- Boolean form of `specSlotMatches`, used with `List.find?`. -/
def specSlotMatchesB (h : ℤ) (s : Slot) : Bool := decide (specSlotMatches h s)

theorem scanSlots_eq_find (h : ℤ) (slots : List Slot) :
    scanSlots h slots = (slots.find? (specSlotMatchesB h)).bind Slot.target_temp_C := by
  induction slots with
  | nil => rfl
  | cons s rest ih =>
    by_cases hm : specSlotMatches h s
    · have hb : specSlotMatchesB h s = true := decide_eq_true hm
      rw [List.find?_cons_of_pos _ hb]
      rcases hm with ⟨h1, h2, h3⟩ | ⟨h1, h2⟩
      · simp [scanSlots, h1, h2, h3]
      · have : ¬ s.start_hour < s.end_hour := not_lt.mpr h1
        simp [scanSlots, this, h2]
    · have hb : specSlotMatchesB h s = false := decide_eq_false hm
      rw [List.find?_cons_of_neg _ (by simp [hb])]
      unfold specSlotMatches at hm
      push_neg at hm
      by_cases hlt : s.start_hour < s.end_hour
      · have hcond : ¬(s.start_hour ≤ h ∧ h < s.end_hour) := by
          intro hc
          exact absurd (hm.1 hlt hc.1) (not_le.mpr hc.2)
        simp [scanSlots, hlt, hcond, ih]
      · have h2 := hm.2 (not_lt.mp hlt)
        have hcond : ¬(h ≥ s.start_hour ∨ h < s.end_hour) := by
          push_neg
          exact ⟨h2.1, h2.2⟩
        simp [scanSlots, hlt, hcond, ih]

/-- C5: for every hour, day type and schedule table, the resolver matches a
slot exactly under the claimed condition, returns the target of the first
matching slot in enumeration order, and returns `none` when no slot
matches (or the day type is absent). -/
theorem claim_C5_schedule_resolver_first_match (h : ℤ) (d : String)
    (sched : List (String × List Slot)) :
    get_target_from_schedule h d sched =
      (match assocFind sched d with
       | none => none
       | some slots => (slots.find? (specSlotMatchesB h)).bind Slot.target_temp_C) := by
  unfold get_target_from_schedule
  cases assocFind sched d with
  | none => rfl
  | some slots => simpa using scanSlots_eq_find h slots

/-- C3: the ramp function, as the spec orders its guards: initial on
non-positive elapsed time, target once the shortened window is consumed,
linear interpolation in between, rounded to 2 decimals; together with the
three concrete values the spec lists. -/
theorem claim_C3_ramp_calculator (rt et : ℤ) (iv tv : ℚ) :
    (et ≤ 0 → conditioning_ramping rt et iv tv = round2 iv) ∧
    (0 < et → rt - 900 ≤ et → conditioning_ramping rt et iv tv = round2 tv) ∧
    (0 < et → et < rt - 900 →
      conditioning_ramping rt et iv tv =
        round2 (iv + (tv - iv) * ((et : ℚ) / ((rt - 900 : ℤ) : ℚ)))) ∧
    conditioning_ramping 3600 0 18 22 = 18 ∧
    conditioning_ramping 3600 2700 18 22 = 22 ∧
    conditioning_ramping 3600 1350 18 22 = 20 := by
  refine ⟨?_, ?_, ?_,
    by norm_num [conditioning_ramping, round2, roundHalfEven],
    by norm_num [conditioning_ramping, round2, roundHalfEven],
    by norm_num [conditioning_ramping, round2, roundHalfEven]⟩
  · intro h1
    simp [conditioning_ramping, h1]
  · intro h1 h2
    rw [conditioning_ramping]
    simp only [not_le.mpr h1, if_false, if_pos h2]
  · intro h1 h2
    rw [conditioning_ramping]
    simp only [not_le.mpr h1, if_false, if_neg (not_le.mpr h2)]

/-- Helper for `hoursRange`: `n` consecutive integers from `a`. -/
def hoursRangeGo : Nat → ℤ → List ℤ
  | 0, _ => []
  | n + 1, a => a :: hoursRangeGo n (a + 1)

/-- The Python expression `range(a, b)` as a list of integers. -/
def hoursRange (a b : ℤ) : List ℤ := hoursRangeGo (b - a).toNat a

theorem mem_hoursRangeGo (h : ℤ) :
    ∀ (n : Nat) (a : ℤ), h ∈ hoursRangeGo n a ↔ a ≤ h ∧ h < a + n := by
  intro n
  induction n with
  | zero =>
    intro a
    simp only [hoursRangeGo, List.not_mem_nil, false_iff]
    omega
  | succ m ih =>
    intro a
    simp only [hoursRangeGo, List.mem_cons, ih (a + 1)]
    omega

theorem mem_hoursRange {a b h : ℤ} : h ∈ hoursRange a b ↔ a ≤ h ∧ h < b := by
  rw [hoursRange, mem_hoursRangeGo]
  omega

theorem countP_one_find {α : Type} (p : α → Bool) (l : List α)
    (h : l.countP p = 1) :
    ∃ a, l.find? p = some a ∧ p a = true ∧ ∀ b ∈ l, p b = true → b = a := by
  induction l with
  | nil => simp at h
  | cons x xs ih =>
    by_cases hx : p x = true
    · have hcount : xs.countP p = 0 := by
        rw [List.countP_cons_of_pos _ _ hx] at h
        omega
      have hnone : ∀ b ∈ xs, ¬ p b = true := List.countP_eq_zero.mp hcount
      refine ⟨x, List.find?_cons_of_pos _ hx, hx, ?_⟩
      intro b hb hpb
      rcases List.mem_cons.mp hb with hbx | hbx
      · exact hbx
      · exact absurd hpb (hnone b hbx)
    · rw [List.countP_cons_of_neg _ _ hx] at h
      obtain ⟨a, hf, hpa, hall⟩ := ih h
      refine ⟨a, ?_, hpa, ?_⟩
      · rw [List.find?_cons_of_neg _ (by simpa using hx)]
        exact hf
      · intro b hb hpb
        rcases List.mem_cons.mp hb with hbx | hbx
        · exact absurd hpb (hbx ▸ hx)
        · exact hall b hbx hpb

/-- C6: for a schedule table whose slots fully and exclusively partition
the 24-hour day (every hour of the day is matched by exactly one slot, each
carrying a target), the resolver returns exactly one non-none target: the
target of the unique matching slot. -/
theorem claim_C6_partition_unique_target (h : ℤ) (d : String)
    (sched : List (String × List Slot)) (slots : List Slot)
    (hd : assocFind sched d = some slots)
    (h0 : 0 ≤ h) (h24 : h < 24)
    (hpart : ∀ h2 ∈ hoursRange 0 24, slots.countP (specSlotMatchesB h2) = 1)
    (htargets : ∀ s ∈ slots, s.target_temp_C.isSome = true) :
    ∃ t, get_target_from_schedule h d sched = some t ∧
      ∀ s ∈ slots, specSlotMatchesB h s = true → s.target_temp_C = some t := by
  have hh : h ∈ hoursRange 0 24 := mem_hoursRange.mpr ⟨h0, h24⟩
  obtain ⟨a, hf, hpa, hall⟩ := countP_one_find _ _ (hpart h hh)
  obtain ⟨t, ht⟩ := Option.isSome_iff_exists.mp
    (htargets a (List.mem_of_find?_eq_some hf))
  refine ⟨t, ?_, ?_⟩
  · simp [get_target_from_schedule, hd, scanSlots_eq_find, hf, ht]
  · intro s hs hps
    rw [hall s hs hps, ht]

/-- A peak ("GDP") event, from `controller/utils/peak_events.py`; the two
timestamps are seconds on the local timeline. -/
structure PeakEvent where
  offre : String
  plagehoraire : String
  duree : String
  secteurclient : String
  datedebut : ℤ
  datefin : ℤ
  deriving DecidableEq

/-- Comparison by start time, the sort key in `retrieve_gdp_event`. -/
def evLE (a b : PeakEvent) : Prop := a.datedebut ≤ b.datedebut

instance : DecidableRel evLE := fun a b =>
  inferInstanceAs (Decidable (a.datedebut ≤ b.datedebut))

instance : IsTotal PeakEvent evLE :=
  ⟨fun a b => Int.le_total a.datedebut b.datedebut⟩

instance : IsTrans PeakEvent evLE :=
  ⟨fun _ _ _ hab hbc => le_trans hab hbc⟩

/-- The event is ongoing: `event.datedebut <= now <= event.datefin`. -/
def gdpOngoing (now : ℤ) (e : PeakEvent) : Prop :=
  e.datedebut ≤ now ∧ now ≤ e.datefin

instance (now : ℤ) (e : PeakEvent) : Decidable (gdpOngoing now e) := by
  unfold gdpOngoing; infer_instance

/-- The event is upcoming: `now < event.datedebut`. -/
def gdpUpcoming (now : ℤ) (e : PeakEvent) : Prop := now < e.datedebut

instance (now : ℤ) (e : PeakEvent) : Decidable (gdpUpcoming now e) := by
  unfold gdpUpcoming; infer_instance

/-- The selection condition of the loop in `retrieve_gdp_event`: an event is
returned if it is ongoing, or else if it is upcoming. -/
def gdpPred (now : ℤ) (e : PeakEvent) : Bool :=
  decide (gdpOngoing now e ∨ gdpUpcoming now e)

/-- The filter `event.datedebut.date() == today` of `retrieve_gdp_event`. -/
def todayEvents (peak_events : List PeakEvent) (now : ℤ) : List PeakEvent :=
  peak_events.filter (fun e => decide (e.datedebut / 86400 = now / 86400))

/-- From `controller/utils/utils.py`, `retrieve_gdp_event`, with the fetched
event list passed explicitly: filter to events starting today, sort by start
time (Python `list.sort` is stable, as is insertion sort), and return the
first ongoing-or-upcoming one, if any.  An empty filtered list gives `none`,
as does the fall-through when all events are finished. -/
def retrieve_gdp_event (peak_events : List PeakEvent) (now : ℤ) :
    Option PeakEvent :=
  (List.insertionSort evLE (todayEvents peak_events now)).find? (gdpPred now)

theorem find_ongoing_of_sorted (now : ℤ) :
    ∀ l : List PeakEvent, l.Sorted evLE → ∀ e ∈ l, gdpOngoing now e →
      ∃ f, l.find? (gdpPred now) = some f ∧ gdpOngoing now f := by
  intro l
  induction l with
  | nil =>
    intro _ e he
    exact absurd he (List.not_mem_nil e)
  | cons x xs ih =>
    intro hs e he ho
    rcases List.sorted_cons.mp hs with ⟨hx, hxs⟩
    by_cases hp : gdpPred now x = true
    · refine ⟨x, List.find?_cons_of_pos _ hp, ?_⟩
      rcases of_decide_eq_true hp with hog | hup
      · exact hog
      · rcases List.mem_cons.mp he with heq | hexs
        · exact absurd (heq ▸ ho).1 (not_le.mpr hup)
        · exact absurd (le_trans (hx e hexs) ho.1) (not_le.mpr hup)
    · have hne : e ≠ x := by
        intro heq
        exact hp (decide_eq_true (Or.inl (heq ▸ ho)))
      obtain ⟨f, hf, hof⟩ :=
        ih hxs e ((List.mem_cons.mp he).resolve_left hne) ho
      refine ⟨f, ?_, hof⟩
      rw [List.find?_cons_of_neg _ (by simpa using hp)]
      exact hf

theorem find_upcoming_of_sorted (now : ℤ) :
    ∀ l : List PeakEvent, l.Sorted evLE →
      (∀ e ∈ l, ¬gdpOngoing now e) → ∀ e ∈ l, gdpUpcoming now e →
        ∃ f, l.find? (gdpPred now) = some f ∧ gdpUpcoming now f ∧
          ∀ e2 ∈ l, gdpUpcoming now e2 → f.datedebut ≤ e2.datedebut := by
  intro l
  induction l with
  | nil =>
    intro _ _ e he
    exact absurd he (List.not_mem_nil e)
  | cons x xs ih =>
    intro hs hno e he hu
    rcases List.sorted_cons.mp hs with ⟨hx, hxs⟩
    by_cases hp : gdpPred now x = true
    · refine ⟨x, List.find?_cons_of_pos _ hp, ?_, ?_⟩
      · rcases of_decide_eq_true hp with hog | hup
        · exact absurd hog (hno x (List.mem_cons_self x xs))
        · exact hup
      · intro e2 he2 _
        rcases List.mem_cons.mp he2 with heq | he2xs
        · exact heq ▸ le_refl x.datedebut
        · exact hx e2 he2xs
    · have hnup : ¬gdpUpcoming now x := fun hup =>
        hp (decide_eq_true (Or.inr hup))
      have hne : e ≠ x := fun heq => hnup (heq ▸ hu)
      have hno2 : ∀ e2 ∈ xs, ¬gdpOngoing now e2 := fun e2 h2 =>
        hno e2 (List.mem_cons_of_mem _ h2)
      obtain ⟨f, hf, hup, hmin⟩ :=
        ih hxs hno2 e ((List.mem_cons.mp he).resolve_left hne) hu
      refine ⟨f, ?_, hup, ?_⟩
      · rw [List.find?_cons_of_neg _ (by simpa using hp)]
        exact hf
      · intro e2 he2 hu2
        rcases List.mem_cons.mp he2 with heq | he2xs
        · exact absurd (heq ▸ hu2) hnup
        · exact hmin e2 he2xs hu2

/-- C7: selection first filters to events whose start date is today, then
returns an ongoing event if one exists, else the nearest upcoming event by
start time, else none (at most one event, since the result is a single
optional value). -/
theorem claim_C7_event_selection (events : List PeakEvent) (now : ℤ) :
    (∀ e, retrieve_gdp_event events now = some e →
      e ∈ todayEvents events now) ∧
    ((∃ e ∈ todayEvents events now, gdpOngoing now e) →
      ∃ f, retrieve_gdp_event events now = some f ∧ gdpOngoing now f) ∧
    ((∀ e ∈ todayEvents events now, ¬gdpOngoing now e) →
      ∀ e ∈ todayEvents events now, gdpUpcoming now e →
        ∃ f, retrieve_gdp_event events now = some f ∧ gdpUpcoming now f ∧
          ∀ e2 ∈ todayEvents events now, gdpUpcoming now e2 →
            f.datedebut ≤ e2.datedebut) ∧
    ((∀ e ∈ todayEvents events now, ¬gdpOngoing now e ∧ ¬gdpUpcoming now e) →
      retrieve_gdp_event events now = none) := by
  have hperm := List.perm_insertionSort evLE (todayEvents events now)
  have hsorted := List.sorted_insertionSort evLE (todayEvents events now)
  refine ⟨?_, ?_, ?_, ?_⟩
  · intro e hret
    exact hperm.mem_iff.mp (List.mem_of_find?_eq_some hret)
  · rintro ⟨e, he, ho⟩
    exact find_ongoing_of_sorted now _ hsorted e (hperm.mem_iff.mpr he) ho
  · intro hno e he hu
    obtain ⟨f, hf, hup, hmin⟩ :=
      find_upcoming_of_sorted now _ hsorted
        (fun e2 h2 => hno e2 (hperm.mem_iff.mp h2)) e
        (hperm.mem_iff.mpr he) hu
    exact ⟨f, hf, hup, fun e2 h2 hu2 => hmin e2 (hperm.mem_iff.mpr h2) hu2⟩
  · intro hall
    apply List.find?_eq_none.mpr
    intro e he
    have h2 := hall e (hperm.mem_iff.mp he)
    simp only [gdpPred, decide_eq_true_eq]
    exact not_or.mpr h2

/-- The hour of a timestamp, as `datetime.hour` on the modelled timeline. -/
def hourOf (t : ℤ) : ℤ := (t / 3600) % 24

/-- The day type: `"weekday" if now.weekday() < 5 else "weekend"`, on the
modelled timeline whose day 0 is a Monday. -/
def dayType (t : ℤ) : String :=
  if (t / 86400) % 7 < 5 then "weekday" else "weekend"

/-- The preconditioning branch's maximum schedule target over the GDP event
hours: start from the target at the event's start hour (`or 0.0`), then fold
`max` over `range(start_gdp_hour, stop_gdp_hour)` of the hourly targets
(each `or 0.0`). -/
def max_target_at_gdp_event (dt : String)
    (schedule : List (String × List Slot)) (start_gdp_hour stop_gdp_hour : ℤ) : ℚ :=
  (hoursRange start_gdp_hour stop_gdp_hour).foldl
    (fun acc h => max acc ((get_target_from_schedule h dt schedule).getD 0))
    ((get_target_from_schedule start_gdp_hour dt schedule).getD 0)

/-- From `controller/utils/utils.py`, `get_target_temperature`.  The zone
configuration (flexibility values, preconditioning flag, and the schedule
already selected by the optional hvac mode) is passed explicitly instead of
being read from the YAML file.  The Python `None` hazards are explicit:
`None - flexibility` in the event branch, and a `None` ramp target inside
`conditioning_ramping` in the recovery branch, raise `TypeError`. -/
def get_target_temperature (flex_upward flex_downward : ℚ)
    (zone_preconditioning : Bool) (schedule : List (String × List Slot))
    (gdp_event : Option PeakEvent) (now : ℤ) : Except String (Option ℚ) :=
  let current_hour := hourOf now
  let current_day_type := dayType now
  let init_target_temperature :=
    get_target_from_schedule current_hour current_day_type schedule
  match gdp_event with
  | none => .ok init_target_temperature
  | some ev =>
    if ev.datedebut ≤ now ∧ now < ev.datefin then
      match init_target_temperature with
      | none => .error "TypeError"
      | some t => .ok (some (t - flex_downward))
    else if zone_preconditioning ∧ ev.datedebut - 7200 ≤ now ∧ now < ev.datedebut then
      let start_preconditioning_hour := hourOf (ev.datedebut - 7200)
      let start_gdp_hour := hourOf ev.datedebut
      let stop_gdp_hour := hourOf ev.datefin
      let max_target :=
        max_target_at_gdp_event current_day_type schedule start_gdp_hour stop_gdp_hour
      let initial :=
        (get_target_from_schedule start_preconditioning_hour current_day_type
          schedule).getD 0
      .ok (some (conditioning_ramping (ev.datedebut - (ev.datedebut - 7200))
        (now - (ev.datedebut - 7200)) initial (flex_upward + max_target)))
    else if ev.datefin ≤ now ∧ now < ev.datefin + 3600 then
      let stop_post_event_hour := hourOf (ev.datefin + 3600)
      let initial :=
        (get_target_from_schedule (hourOf ev.datefin - 1) current_day_type
          schedule).getD 0
      match get_target_from_schedule stop_post_event_hour current_day_type
          schedule with
      | some tv =>
        .ok (some (conditioning_ramping (ev.datefin + 3600 - ev.datefin)
          (now - ev.datefin) initial tv))
      | none =>
        if now - ev.datefin ≤ 0 then .ok (some (round2 initial))
        else .error "TypeError"
    else
      .ok init_target_temperature

theorem foldl_max_le_acc (l : List ℚ) : ∀ acc : ℚ, acc ≤ l.foldl max acc := by
  induction l with
  | nil => intro acc; exact le_refl acc
  | cons x xs ih =>
    intro acc
    exact le_trans (le_max_left acc x) (ih (max acc x))

theorem foldl_max_le_mem (l : List ℚ) :
    ∀ acc : ℚ, ∀ x ∈ l, x ≤ l.foldl max acc := by
  induction l with
  | nil =>
    intro _ x hx
    exact absurd hx (List.not_mem_nil x)
  | cons y ys ih =>
    intro acc x hx
    rw [List.foldl_cons]
    rcases List.mem_cons.mp hx with heq | hmem
    · subst heq
      exact le_trans (le_max_right acc x) (foldl_max_le_acc ys (max acc x))
    · exact ih (max acc y) x hmem

theorem foldl_max_cases (l : List ℚ) :
    ∀ acc : ℚ, l.foldl max acc = acc ∨ l.foldl max acc ∈ l := by
  induction l with
  | nil => intro acc; exact Or.inl rfl
  | cons x xs ih =>
    intro acc
    rcases ih (max acc x) with h | h
    · rcases le_total acc x with hle | hle
      · right
        rw [List.foldl_cons, h, max_eq_right hle]
        exact List.mem_cons_self x xs
      · left
        rw [List.foldl_cons, h, max_eq_left hle]
    · right
      rw [List.foldl_cons]
      exact List.mem_cons_of_mem x h

/-- When every event hour has a schedule target, the code's fold computes
the maximum of those targets: it bounds every one of them and is attained at
one of them. -/
theorem max_target_at_gdp_event_spec (dt : String)
    (sched : List (String × List Slot)) (sH eH : ℤ) (hlt : sH < eH)
    (f : ℤ → ℚ)
    (hf : ∀ h, sH ≤ h → h < eH →
      get_target_from_schedule h dt sched = some (f h)) :
    (∀ h, sH ≤ h → h < eH → f h ≤ max_target_at_gdp_event dt sched sH eH) ∧
    (∃ h, sH ≤ h ∧ h < eH ∧ f h = max_target_at_gdp_event dt sched sH eH) := by
  have hg : ∀ h, sH ≤ h → h < eH →
      (get_target_from_schedule h dt sched).getD 0 = f h := by
    intro h h1 h2
    rw [hf h h1 h2]
    rfl
  have hrw : max_target_at_gdp_event dt sched sH eH =
      ((hoursRange sH eH).map
        (fun h => (get_target_from_schedule h dt sched).getD 0)).foldl max
        ((get_target_from_schedule sH dt sched).getD 0) := by
    rw [max_target_at_gdp_event, List.foldl_map]
  constructor
  · intro h h1 h2
    rw [← hg h h1 h2, hrw]
    exact foldl_max_le_mem _ _ _
      (List.mem_map_of_mem _ (mem_hoursRange.mpr ⟨h1, h2⟩))
  · rw [hrw]
    rcases foldl_max_cases
        ((hoursRange sH eH).map
          (fun h => (get_target_from_schedule h dt sched).getD 0))
        ((get_target_from_schedule sH dt sched).getD 0) with hc | hc
    · refine ⟨sH, le_refl sH, hlt, ?_⟩
      rw [hc, hg sH (le_refl sH) hlt]
    · obtain ⟨h, hh, hval⟩ := List.mem_map.mp hc
      have hb := mem_hoursRange.mp hh
      refine ⟨h, hb.1, hb.2, ?_⟩
      rw [← hval, hg h hb.1 hb.2]

theorem gtt_eval_event (fu fd : ℚ) (pc : Bool)
    (sched : List (String × List Slot)) (ev : PeakEvent) (now : ℤ)
    (hw : ev.datedebut ≤ now ∧ now < ev.datefin) :
    get_target_temperature fu fd pc sched (some ev) now =
      match get_target_from_schedule (hourOf now) (dayType now) sched with
      | none => .error "TypeError"
      | some t => .ok (some (t - fd)) := by
  rw [get_target_temperature]
  simp only [if_pos hw]

theorem gtt_eval_precond (fu fd : ℚ)
    (sched : List (String × List Slot)) (ev : PeakEvent) (now : ℤ)
    (hw1 : ¬(ev.datedebut ≤ now ∧ now < ev.datefin))
    (hw2 : ev.datedebut - 7200 ≤ now ∧ now < ev.datedebut) :
    get_target_temperature fu fd true sched (some ev) now =
      .ok (some (conditioning_ramping 7200 (now - (ev.datedebut - 7200))
        ((get_target_from_schedule (hourOf (ev.datedebut - 7200)) (dayType now)
          sched).getD 0)
        (fu + max_target_at_gdp_event (dayType now) sched (hourOf ev.datedebut)
          (hourOf ev.datefin)))) := by
  have h72 : ev.datedebut - (ev.datedebut - 7200) = 7200 := by omega
  rw [get_target_temperature]
  simp only [if_neg hw1, h72]
  rw [if_pos (show True ∧ ev.datedebut - 7200 ≤ now ∧ now < ev.datedebut from
    ⟨trivial, hw2⟩)]

theorem gtt_eval_recovery (fu fd : ℚ) (pc : Bool)
    (sched : List (String × List Slot)) (ev : PeakEvent) (now : ℤ)
    (hw1 : ¬(ev.datedebut ≤ now ∧ now < ev.datefin))
    (hw2 : ¬((pc = true) ∧ ev.datedebut - 7200 ≤ now ∧ now < ev.datedebut))
    (hw3 : ev.datefin ≤ now ∧ now < ev.datefin + 3600) :
    get_target_temperature fu fd pc sched (some ev) now =
      match get_target_from_schedule (hourOf (ev.datefin + 3600)) (dayType now)
          sched with
      | some tv =>
        .ok (some (conditioning_ramping 3600 (now - ev.datefin)
          ((get_target_from_schedule (hourOf ev.datefin - 1) (dayType now)
            sched).getD 0) tv))
      | none =>
        if now - ev.datefin ≤ 0 then
          .ok (some (round2 ((get_target_from_schedule (hourOf ev.datefin - 1)
            (dayType now) sched).getD 0)))
        else .error "TypeError" := by
  have h36 : ev.datefin + 3600 - ev.datefin = 3600 := by omega
  rw [get_target_temperature]
  simp only [if_neg hw1, if_neg hw2, if_pos hw3, h36]

theorem gtt_eval_normal (fu fd : ℚ) (pc : Bool)
    (sched : List (String × List Slot)) (ev : PeakEvent) (now : ℤ)
    (hw1 : ¬(ev.datedebut ≤ now ∧ now < ev.datefin))
    (hw2 : ¬((pc = true) ∧ ev.datedebut - 7200 ≤ now ∧ now < ev.datedebut))
    (hw3 : ¬(ev.datefin ≤ now ∧ now < ev.datefin + 3600)) :
    get_target_temperature fu fd pc sched (some ev) now =
      .ok (get_target_from_schedule (hourOf now) (dayType now) sched) := by
  rw [get_target_temperature]
  simp only [if_neg hw1, if_neg hw2, if_neg hw3]

/-- C1: with a selected peak event, the target follows the stated priority
order with first match winning — event setback, preconditioning ramp,
recovery ramp, unmodified schedule — and, in particular, for an event from
16:00 to 20:00 of any day with downward flexibility 2, the target at 17:00
is the schedule target for hour 17 minus 2. -/
theorem claim_C1_peak_phase_priority (fu fd : ℚ) (pc : Bool)
    (sched : List (String × List Slot)) (ev : PeakEvent) (now : ℤ) :
    ((ev.datedebut ≤ now ∧ now < ev.datefin) →
      ∀ t, get_target_from_schedule (hourOf now) (dayType now) sched = some t →
        get_target_temperature fu fd pc sched (some ev) now =
          .ok (some (t - fd))) ∧
    (¬(ev.datedebut ≤ now ∧ now < ev.datefin) →
      pc = true → (ev.datedebut - 7200 ≤ now ∧ now < ev.datedebut) →
      hourOf ev.datedebut < hourOf ev.datefin →
      ∀ f : ℤ → ℚ,
        (∀ h, hourOf ev.datedebut ≤ h → h < hourOf ev.datefin →
          get_target_from_schedule h (dayType now) sched = some (f h)) →
      ∀ i, get_target_from_schedule (hourOf (ev.datedebut - 7200)) (dayType now)
          sched = some i →
      ∃ M, (∀ h, hourOf ev.datedebut ≤ h → h < hourOf ev.datefin → f h ≤ M) ∧
        (∃ h, hourOf ev.datedebut ≤ h ∧ h < hourOf ev.datefin ∧ f h = M) ∧
        get_target_temperature fu fd pc sched (some ev) now =
          .ok (some (conditioning_ramping 7200 (now - (ev.datedebut - 7200)) i
            (fu + M)))) ∧
    (¬(ev.datedebut ≤ now ∧ now < ev.datefin) →
      ¬((pc = true) ∧ ev.datedebut - 7200 ≤ now ∧ now < ev.datedebut) →
      (ev.datefin ≤ now ∧ now < ev.datefin + 3600) →
      ∀ i tv,
        get_target_from_schedule (hourOf ev.datefin - 1) (dayType now) sched =
          some i →
        get_target_from_schedule (hourOf (ev.datefin + 3600)) (dayType now)
          sched = some tv →
        get_target_temperature fu fd pc sched (some ev) now =
          .ok (some (conditioning_ramping 3600 (now - ev.datefin) i tv))) ∧
    (¬(ev.datedebut ≤ now ∧ now < ev.datefin) →
      ¬((pc = true) ∧ ev.datedebut - 7200 ≤ now ∧ now < ev.datedebut) →
      ¬(ev.datefin ≤ now ∧ now < ev.datefin + 3600) →
      get_target_temperature fu fd pc sched (some ev) now =
        .ok (get_target_from_schedule (hourOf now) (dayType now) sched)) ∧
    (∀ (d : ℤ) (t : ℚ),
      ev.datedebut = 86400 * d + 57600 → ev.datefin = 86400 * d + 72000 →
      now = 86400 * d + 61200 → fd = 2 →
      get_target_from_schedule 17 (dayType now) sched = some t →
      get_target_temperature fu fd pc sched (some ev) now =
        .ok (some (t - 2))) := by
  refine ⟨?_, ?_, ?_, ?_, ?_⟩
  · intro hw t ht
    rw [gtt_eval_event fu fd pc sched ev now hw, ht]
  · intro hw1 hpc hw2 hlt f hf i hi
    subst hpc
    obtain ⟨hmax1, hmax2⟩ := max_target_at_gdp_event_spec (dayType now) sched
      (hourOf ev.datedebut) (hourOf ev.datefin) hlt f hf
    refine ⟨max_target_at_gdp_event (dayType now) sched (hourOf ev.datedebut)
      (hourOf ev.datefin), hmax1, hmax2, ?_⟩
    rw [gtt_eval_precond fu fd sched ev now hw1 hw2, hi]
    rfl
  · intro hw1 hw2 hw3 i tv hi htv
    rw [gtt_eval_recovery fu fd pc sched ev now hw1 hw2 hw3, htv, hi]
    rfl
  · exact gtt_eval_normal fu fd pc sched ev now
  · intro d t hdeb hfin hnow hfd ht
    have hhour : hourOf now = 17 := by
      subst hnow
      unfold hourOf
      omega
    subst hfd
    have hw : ev.datedebut ≤ now ∧ now < ev.datefin := by omega
    rw [gtt_eval_event fu 2 pc sched ev now hw, hhour, ht]

/-- C10: if the schedule yields no target for the current hour while a peak
event is ongoing, resolving the target raises `TypeError` (from subtracting
the downward flexibility from `None`) instead of returning `None`. -/
theorem claim_C10_event_branch_type_error (fu fd : ℚ) (pc : Bool)
    (sched : List (String × List Slot)) (ev : PeakEvent) (now : ℤ)
    (h1 : ev.datedebut ≤ now) (h2 : now < ev.datefin)
    (hnone : get_target_from_schedule (hourOf now) (dayType now) sched = none) :
    get_target_temperature fu fd pc sched (some ev) now = .error "TypeError" := by
  rw [gtt_eval_event fu fd pc sched ev now ⟨h1, h2⟩, hnone]

/-- A Python value as it appears in the control-action and device-state
dicts: `None`, a float, a string, or a nested dict (association list in
insertion order). -/
inductive PyVal where
  | pnone : PyVal
  | num : ℚ → PyVal
  | str : String → PyVal
  | dict : List (String × PyVal) → PyVal

mutual

/-- Python `==` on the values above.  Dict comparison is structural; the
executor never actually compares two dicts (zone actions are floats and the
heat-pump fields are read individually), so insertion order is immaterial
on every reachable comparison. -/
def pyEq : PyVal → PyVal → Bool
  | .pnone, .pnone => true
  | .num a, .num b => a == b
  | .str a, .str b => a == b
  | .dict a, .dict b => pyEqList a b
  | _, _ => false

/-- Entrywise comparison of two dicts. -/
def pyEqList : List (String × PyVal) → List (String × PyVal) → Bool
  | [], [] => true
  | (k1, v1) :: r1, (k2, v2) :: r2 => k1 == k2 && pyEq v1 v2 && pyEqList r1 r2
  | _, _ => false

end

/-- Python `d[k]` on a value: `KeyError` when the key is missing,
`TypeError` when the value is not a dict. -/
def pyIndex (v : PyVal) (k : String) : Except String PyVal :=
  match v with
  | .dict d =>
    match assocFind d k with
    | some x => .ok x
    | none => .error ("KeyError: " ++ k)
  | _ => .error "TypeError"

/-- The snapshot lookup `devices_state.get(id, {}).get(field)`. -/
def snapGet (devices_state : List (String × List (String × PyVal)))
    (id field : String) : PyVal :=
  match assocFind devices_state id with
  | some d => (assocFind d field).getD PyVal.pnone
  | none => PyVal.pnone

/-- The per-zone metrics the decision logic reads (the entries of
`zone_metrics` built by `_get_zone_metrics`). -/
structure ZoneState where
  inside_temperature : ℚ
  target_temperature : ℚ
  heat_pump_impact : ℚ

/-- `numpy.mean` of a list of floats. -/
def meanQ (l : List ℚ) : ℚ := l.sum / (l.length : ℚ)

/-- From `ha_interface/ha_interface.py`, `_control_logic_hp`: build the
control-action dict.  The `heat_pump` entry is inserted first, as in the
code, and holds a dict with exactly the keys `state` and `setpoint`; each
impacted zone maps to a bare setpoint float. -/
def control_logic_hp (zones_with_hp_impact_state : List (String × ZoneState))
    (heat_pump_mode : String) (heat_pump_cop : ℚ) : List (String × PyVal) :=
  let inside_temp :=
    meanQ (zones_with_hp_impact_state.map (fun z => z.2.inside_temperature))
  let target_temp :=
    meanQ (zones_with_hp_impact_state.map (fun z => z.2.target_temperature))
  if heat_pump_mode = "heat" then
    if inside_temp < target_temp then
      if heat_pump_cop ≥ 5/2 then
        ("heat_pump", PyVal.dict [("state", PyVal.str heat_pump_mode),
          ("setpoint", PyVal.num (target_temp + 1))]) ::
          zones_with_hp_impact_state.map
            (fun z => (z.1, PyVal.num (target_temp - 1)))
      else
        ("heat_pump", PyVal.dict [("state", PyVal.str heat_pump_mode),
          ("setpoint", PyVal.num (target_temp + 1))]) ::
          zones_with_hp_impact_state.map (fun z => (z.1, PyVal.num target_temp))
    else
      ("heat_pump", PyVal.dict [("state", PyVal.str heat_pump_mode),
        ("setpoint", PyVal.num target_temp)]) ::
        zones_with_hp_impact_state.map
          (fun z => (z.1, PyVal.num (target_temp - 2)))
  else if heat_pump_mode = "cool" then
    ("heat_pump", PyVal.dict [("state", PyVal.str heat_pump_mode),
      ("setpoint", PyVal.num (if inside_temp > target_temp then target_temp - 1
        else target_temp))]) ::
      zones_with_hp_impact_state.map (fun z => (z.1, PyVal.num 5))
  else
    ("heat_pump", PyVal.dict [("state", PyVal.str heat_pump_mode),
      ("setpoint", PyVal.pnone)]) ::
      zones_with_hp_impact_state.map (fun z => (z.1, PyVal.num 10))

/-- One emitted device-platform command (`self.set` in the code). -/
structure ApplyCall where
  service : String
  entity_id : String
  payload : PyVal

/-- The `heat_pump` arm of the loop in `execute_control_actions`: compare
the computed state with the reported one and, on difference, evaluate the
log f-string — which reads `action["mode"]` — before emitting the
`set_hvac_mode` call; then, unless the pump is off, compare and emit the
`set_temperature` call. -/
def execHp (devices_state : List (String × List (String × PyVal)))
    (action : PyVal) (acc : List ApplyCall) :
    Except String (List ApplyCall) :=
  match pyIndex action "state" with
  | .error e => .error e
  | .ok st =>
    match (if pyEq st (snapGet devices_state "climate.heat_pump" "state") then
        Except.ok acc
      else
        match pyIndex action "mode" with
        | .error e => .error e
        | .ok _ => .ok (acc ++ [⟨"set_hvac_mode", "climate.heat_pump", st⟩])) with
    | .error e => .error e
    | .ok acc1 =>
      if pyEq st (PyVal.str "off") then .ok acc1
      else
        match pyIndex action "setpoint" with
        | .error e => .error e
        | .ok sp =>
          if pyEq sp (snapGet devices_state "climate.heat_pump" "temperature")
          then .ok acc1
          else .ok (acc1 ++ [⟨"set_temperature", "climate.heat_pump", sp⟩])

/-- The loop of `execute_control_actions`, accumulating emitted calls. -/
def execLoop (devices_state : List (String × List (String × PyVal))) :
    List (String × PyVal) → List ApplyCall → Except String (List ApplyCall)
  | [], acc => .ok acc
  | (device_id, action) :: rest, acc =>
    if device_id = "heat_pump" then
      match execHp devices_state action acc with
      | .error e => .error e
      | .ok acc1 => execLoop devices_state rest acc1
    else
      if pyEq action (snapGet devices_state device_id "temperature") then
        execLoop devices_state rest acc
      else
        execLoop devices_state rest
          (acc ++ [⟨"set_temperature", device_id, action⟩])

/-- From `ha_interface/ha_interface.py`, `execute_control_actions`: walk the
computed actions, emitting a command only where the computed value differs
from the snapshot's reported one; the result is the list of emitted apply
calls, or the first uncaught exception. -/
def execute_control_actions (control_actions : List (String × PyVal))
    (devices_state : List (String × List (String × PyVal))) :
    Except String (List ApplyCall) :=
  execLoop devices_state control_actions []

/-- C2: in heat mode, with mean inside temperature `i` and mean target `t`
across the impacted zones: below target the heat pump aims one degree above
target, with zone setpoints one below target when COP is at least 2.5 and at
target otherwise; at or above target the heat pump aims at target and every
zone is set two below.  In particular `inside = 19`, `target = 21`,
`cop = 3` gives heat-pump setpoint 22 and zone setpoints 20. -/
theorem claim_C2_heat_mode_decision (zones : List (String × ZoneState))
    (hne : zones ≠ []) (i t cop : ℚ)
    (hi : meanQ (zones.map (fun z => z.2.inside_temperature)) = i)
    (ht : meanQ (zones.map (fun z => z.2.target_temperature)) = t) :
    (i < t → 5/2 ≤ cop →
      control_logic_hp zones "heat" cop =
        ("heat_pump", PyVal.dict [("state", PyVal.str "heat"),
          ("setpoint", PyVal.num (t + 1))]) ::
          zones.map (fun z => (z.1, PyVal.num (t - 1)))) ∧
    (i < t → cop < 5/2 →
      control_logic_hp zones "heat" cop =
        ("heat_pump", PyVal.dict [("state", PyVal.str "heat"),
          ("setpoint", PyVal.num (t + 1))]) ::
          zones.map (fun z => (z.1, PyVal.num t))) ∧
    (t ≤ i →
      control_logic_hp zones "heat" cop =
        ("heat_pump", PyVal.dict [("state", PyVal.str "heat"),
          ("setpoint", PyVal.num t)]) ::
          zones.map (fun z => (z.1, PyVal.num (t - 2)))) ∧
    (i = 19 → t = 21 → cop = 3 →
      control_logic_hp zones "heat" cop =
        ("heat_pump", PyVal.dict [("state", PyVal.str "heat"),
          ("setpoint", PyVal.num 22)]) ::
          zones.map (fun z => (z.1, PyVal.num 20))) := by
  refine ⟨?_, ?_, ?_, ?_⟩
  · intro hlt hcop
    simp [control_logic_hp, hi, ht, hlt, hcop]
  · intro hlt hcop
    simp [control_logic_hp, hi, ht, hlt, not_le.mpr hcop]
  · intro hle
    simp [control_logic_hp, hi, ht, not_lt.mpr hle]
  · intro h1 h2 h3
    subst h1
    subst h2
    subst h3
    norm_num [control_logic_hp, hi, ht]

/-- The claim's premise for idempotence, per computed action: for the
`heat_pump` entry, the computed state and setpoint equal (in the Python
sense) the snapshot's reported heat-pump state and temperature; for a zone
entry, the computed setpoint equals the reported temperature. -/
def checkMatch (devices_state : List (String × List (String × PyVal)))
    (p : String × PyVal) : Bool :=
  if p.1 = "heat_pump" then
    (match pyIndex p.2 "state" with
     | .ok st => pyEq st (snapGet devices_state "climate.heat_pump" "state")
     | .error _ => false) &&
    (match pyIndex p.2 "setpoint" with
     | .ok sp =>
       pyEq sp (snapGet devices_state "climate.heat_pump" "temperature")
     | .error _ => false)
  else pyEq p.2 (snapGet devices_state p.1 "temperature")

theorem execLoop_no_calls (ds : List (String × List (String × PyVal))) :
    ∀ (cas : List (String × PyVal)) (acc : List ApplyCall),
      (∀ p ∈ cas, checkMatch ds p = true) → execLoop ds cas acc = .ok acc := by
  intro cas
  induction cas with
  | nil =>
    intro acc _
    rfl
  | cons p rest ih =>
    intro acc hall
    obtain ⟨device_id, action⟩ := p
    have hp := hall _ (List.mem_cons_self _ _)
    have hrest : ∀ q ∈ rest, checkMatch ds q = true := fun q hq =>
      hall q (List.mem_cons_of_mem _ hq)
    rw [execLoop]
    by_cases hid : device_id = "heat_pump"
    · rw [if_pos hid]
      cases hstate : pyIndex action "state" with
      | error e =>
        simp [checkMatch, hid, hstate] at hp
      | ok st =>
        cases hsp : pyIndex action "setpoint" with
        | error e =>
          simp [checkMatch, hid, hstate, hsp] at hp
        | ok sp =>
          simp [checkMatch, hid, hstate, hsp] at hp
          obtain ⟨h1, h2⟩ := hp
          have hexec : execHp ds action acc = .ok acc := by
            by_cases hoff : pyEq st (PyVal.str "off") = true
            · simp [execHp, hstate, h1, hoff]
            · simp [execHp, hstate, h1, hoff, hsp, h2]
          rw [hexec]
          exact ih acc hrest
    · rw [if_neg hid]
      simp [checkMatch, hid] at hp
      rw [if_pos hp]
      exact ih acc hrest

/-- C8: when every computed action equals the corresponding reported value
of the device-state snapshot, executing the control actions emits zero apply
calls to the device platform. -/
theorem claim_C8_idempotent_execution (cas : List (String × PyVal))
    (ds : List (String × List (String × PyVal)))
    (h : ∀ p ∈ cas, checkMatch ds p = true) :
    execute_control_actions cas ds = .ok [] :=
  execLoop_no_calls ds cas [] h

theorem control_logic_hp_head (zones : List (String × ZoneState))
    (mode : String) (cop : ℚ) :
    ∃ sp rest, control_logic_hp zones mode cop =
      ("heat_pump", PyVal.dict [("state", PyVal.str mode), ("setpoint", sp)])
        :: rest := by
  simp only [control_logic_hp]
  split
  · split
    · split
      · exact ⟨_, _, rfl⟩
      · exact ⟨_, _, rfl⟩
    · exact ⟨_, _, rfl⟩
  · split
    · exact ⟨_, _, rfl⟩
    · exact ⟨_, _, rfl⟩

/-- C9: the decision logic's heat-pump action holds exactly the keys
`state` and `setpoint`, so whenever its computed state differs from the
snapshot's reported heat-pump state, executing the control actions raises
`KeyError` on the `action["mode"]` read and the mode change is never
emitted. -/
theorem claim_C9_mode_key_error (zones : List (String × ZoneState))
    (mode : String) (cop : ℚ)
    (ds : List (String × List (String × PyVal))) :
    (∃ sp rest, control_logic_hp zones mode cop =
      ("heat_pump", PyVal.dict [("state", PyVal.str mode), ("setpoint", sp)])
        :: rest) ∧
    (pyEq (PyVal.str mode) (snapGet ds "climate.heat_pump" "state") = false →
      execute_control_actions (control_logic_hp zones mode cop) ds =
        .error "KeyError: mode") := by
  obtain ⟨sp, rest, hhead⟩ := control_logic_hp_head zones mode cop
  refine ⟨⟨sp, rest, hhead⟩, ?_⟩
  intro hdiff
  rw [execute_control_actions, hhead, execLoop, if_pos rfl]
  have hidx : pyIndex
      (PyVal.dict [("state", PyVal.str mode), ("setpoint", sp)]) "state" =
      .ok (PyVal.str mode) := rfl
  have hmode : pyIndex
      (PyVal.dict [("state", PyVal.str mode), ("setpoint", sp)]) "mode" =
      .error "KeyError: mode" := rfl
  simp [execHp, hidx, hdiff, hmode]

/-- Sum of `f` over a point list (a numpy reduction). -/
def mdot (pts : List (ℚ × ℚ)) (f : ℚ × ℚ → ℚ) : ℚ := (pts.map f).sum

/-- Determinant of a 3 by 3 matrix given row by row. -/
def det3 (a b c d e f g h i : ℚ) : ℚ :=
  a * (e * i - f * h) - b * (d * i - f * g) + c * (d * h - e * g)

/-- The distinct abscissae of a point list, in first-occurrence order. -/
def distinctXs (pts : List (ℚ × ℚ)) : List ℚ :=
  pts.foldl (fun acc p => if p.1 ∈ acc then acc else acc ++ [p.1]) []

/-- Mean ordinate of the points sharing the abscissa `u`. -/
def meanYAt (pts : List (ℚ × ℚ)) (u : ℚ) : ℚ :=
  meanQ ((pts.filter (fun p => p.1 == u)).map (fun p => p.2))

/-- Minimum-norm exact quadratic through a single point. -/
def minNormOne (u w : ℚ) : ℚ × ℚ × ℚ :=
  let s := u ^ 4 + u ^ 2 + 1
  (w * u ^ 2 / s, w * u / s, w / s)

/-- Minimum-norm exact quadratic through two points with distinct
abscissae (Gram-matrix solve). -/
def minNormTwo (u v wu wv : ℚ) : ℚ × ℚ × ℚ :=
  let g11 := u ^ 4 + u ^ 2 + 1
  let g22 := v ^ 4 + v ^ 2 + 1
  let g12 := u ^ 2 * v ^ 2 + u * v + 1
  let dg := g11 * g22 - g12 * g12
  let c1 := (g22 * wu - g12 * wv) / dg
  let c2 := (g11 * wv - g12 * wu) / dg
  (c1 * u ^ 2 + c2 * v ^ 2, c1 * u + c2 * v, c1 + c2)

/-- Degree-2 least squares over exact rationals, the numerics of
`numpy.polyfit(x, y, 2)`: the normal-equations (Cramer) solution when the
normal matrix is invertible (at least 3 distinct abscissae), and the
minimum-norm least-squares solution numpy's rank-deficient path produces
otherwise (with fewer distinct abscissae the least-squares minimisers are
the exact fits of the per-abscissa means).  The coefficients are returned
highest degree first, as numpy does. -/
def lstsq2 (pts : List (ℚ × ℚ)) : ℚ × ℚ × ℚ :=
  let m0 : ℚ := (pts.length : ℚ)
  let m1 := mdot pts (fun p => p.1)
  let m2 := mdot pts (fun p => p.1 ^ 2)
  let m3 := mdot pts (fun p => p.1 ^ 3)
  let m4 := mdot pts (fun p => p.1 ^ 4)
  let b0 := mdot pts (fun p => p.2)
  let b1 := mdot pts (fun p => p.1 * p.2)
  let b2 := mdot pts (fun p => p.1 ^ 2 * p.2)
  let d := det3 m4 m3 m2 m3 m2 m1 m2 m1 m0
  if d ≠ 0 then
    (det3 b2 m3 m2 b1 m2 m1 b0 m1 m0 / d,
     det3 m4 b2 m2 m3 b1 m1 m2 b0 m0 / d,
     det3 m4 m3 b2 m3 m2 b1 m2 m1 b0 / d)
  else
    match distinctXs pts with
    | [u] => minNormOne u (meanYAt pts u)
    | [u, v] => minNormTwo u v (meanYAt pts u) (meanYAt pts v)
    | _ => (0, 0, 0)

/-- `numpy.polyfit(x, y, 2)`: raises `TypeError` on an empty vector and
otherwise fits — there is no minimum-point-count check, rank-deficient
inputs only produce a `RankWarning`, which is not an exception. -/
def polyfit2 (xs ys : List ℚ) : Except String (ℚ × ℚ × ℚ) :=
  if xs.isEmpty then .error "TypeError: expected non-empty vector for x"
  else .ok (lstsq2 (xs.zip ys))

/-- From `controller/utils/utils.py`, `create_cop_model`, with the COP point
tables of the heat-pump YAML passed explicitly: fit the cooling curve, then
the heating curve, and return both models.  No count or distinctness check
is performed on the point tables. -/
def create_cop_model (cooling_points heating_points : List (ℚ × ℚ)) :
    Except String ((ℚ × ℚ × ℚ) × (ℚ × ℚ × ℚ)) :=
  match polyfit2 (cooling_points.map (fun p => p.1))
      (cooling_points.map (fun p => p.2)) with
  | .error e => .error e
  | .ok cooling_cop_model =>
    match polyfit2 (heating_points.map (fun p => p.1))
        (heating_points.map (fun p => p.2)) with
    | .error e => .error e
    | .ok heating_cop_model => .ok (cooling_cop_model, heating_cop_model)

/-- C4 fails on the code: with only two distinct COP points per mode —
fewer than the three the claim requires — building the model succeeds and
silently fits a degenerate quadratic; no `InsufficientDataError` is raised
(no such check or error exists in `create_cop_model`). -/
theorem claim_C4_two_points_fit_succeeds :
    ∃ m, create_cop_model [(-10, 2), (0, 3)] [(-10, 2), (0, 3)] =
      .ok m := ⟨_, rfl⟩

/-- The default schedule of the configuration template. -/
def schedFix : List (String × List Slot) :=
  [("weekday", [⟨6, 22, some 21⟩, ⟨22, 6, some 18⟩]),
   ("weekend", [⟨8, 23, some 22⟩, ⟨23, 8, some 19⟩])]

/-- A schedule with no weekday entry at all. -/
def schedWeekendOnly : List (String × List Slot) :=
  [("weekend", [⟨8, 23, some 22⟩, ⟨23, 8, some 19⟩])]

/-- A peak event on day 0 (a Monday) from 16:00 to 20:00. -/
def evFix : PeakEvent :=
  ⟨"OEA", "AM", "PT4H", "Residentiel", 57600, 72000⟩

/-- One impacted zone at 19 degrees inside with target 21. -/
def zonesFix : List (String × ZoneState) :=
  [("climate.z1", ⟨19, 21, 1⟩)]

/-- Computed actions equal to the reported state of `dsFix`. -/
def casFix : List (String × PyVal) :=
  [("heat_pump", PyVal.dict [("state", PyVal.str "heat"),
    ("setpoint", PyVal.num 21)]),
   ("climate.z1", PyVal.num 20)]

/-- A snapshot already at the computed actions of `casFix`. -/
def dsFix : List (String × List (String × PyVal)) :=
  [("climate.heat_pump", [("state", PyVal.str "heat"),
    ("temperature", PyVal.num 21)]),
   ("climate.z1", [("temperature", PyVal.num 20)])]

/-- A snapshot reporting the heat pump off. -/
def dsOffFix : List (String × List (String × PyVal)) :=
  [("climate.heat_pump", [("state", PyVal.str "off"),
    ("temperature", PyVal.num 21)])]

/-- Witness for C1: the event of `evFix` runs 16:00-20:00 with downward
flexibility 2, and the target resolved at 17:00 is the hour-17 schedule
target 21 minus 2. -/
theorem claim_C1_witness :
    get_target_temperature 0 2 false schedFix (some evFix) 61200 =
      .ok (some (21 - 2)) :=
  (claim_C1_peak_phase_priority 0 2 false schedFix evFix 61200).2.2.2.2
    0 21 (by norm_num [evFix]) (by norm_num [evFix]) (by norm_num) rfl rfl

/-- Witness for C2: one zone at 19 inside with target 21 and COP 3 in heat
mode gives heat-pump setpoint 22 and zone setpoint 20. -/
theorem claim_C2_witness :
    control_logic_hp zonesFix "heat" 3 =
      ("heat_pump", PyVal.dict [("state", PyVal.str "heat"),
        ("setpoint", PyVal.num 22)]) ::
        zonesFix.map (fun z => (z.1, PyVal.num 20)) :=
  (claim_C2_heat_mode_decision zonesFix (by simp [zonesFix]) 19 21 3
    (by simp [zonesFix, meanQ]) (by simp [zonesFix, meanQ])).2.2.2 rfl rfl rfl

/-- Witness for C3: inside the shortened window the ramp interpolates
linearly. -/
theorem claim_C3_witness :
    conditioning_ramping 3600 1000 18 22 =
      round2 (18 + (22 - 18) * ((1000 : ℚ) / (((3600 : ℤ) - 900 : ℤ) : ℚ))) :=
  (claim_C3_ramp_calculator 3600 1000 18 22).2.2.1 (by norm_num) (by norm_num)

/-- Witness for C6: the default weekday slots partition the day, and hour 7
resolves to the unique matching slot's target. -/
theorem claim_C6_witness :
    ∃ t, get_target_from_schedule 7 "weekday" schedFix = some t ∧
      ∀ s ∈ [Slot.mk 6 22 (some 21), Slot.mk 22 6 (some 18)],
        specSlotMatchesB 7 s = true → s.target_temp_C = some t :=
  claim_C6_partition_unique_target 7 "weekday" schedFix
    [Slot.mk 6 22 (some 21), Slot.mk 22 6 (some 18)] rfl (by norm_num)
    (by norm_num) (by decide) (by decide)

/-- Witness for C7: with one event running 16:00-20:00 today, selection at
17:00 returns an ongoing event. -/
theorem claim_C7_witness :
    ∃ f, retrieve_gdp_event [evFix] 61200 = some f ∧ gdpOngoing 61200 f :=
  (claim_C7_event_selection [evFix] 61200).2.1 ⟨evFix, by decide, by decide⟩

/-- Witness for C8: a snapshot already matching the computed actions leads
to zero emitted apply calls. -/
theorem claim_C8_witness : execute_control_actions casFix dsFix = .ok [] :=
  claim_C8_idempotent_execution casFix dsFix (by decide)

/-- Witness for C9: the snapshot reports the pump off while heat is
computed, so execution raises `KeyError` on the missing `mode` key. -/
theorem claim_C9_witness :
    execute_control_actions (control_logic_hp zonesFix "heat" 3) dsOffFix =
      .error "KeyError: mode" :=
  (claim_C9_mode_key_error zonesFix "heat" 3 dsOffFix).2 (by decide)

/-- Witness for C10: a schedule with no weekday slots during an ongoing
event raises `TypeError`. -/
theorem claim_C10_witness :
    get_target_temperature 0 2 false schedWeekendOnly (some evFix) 61200 =
      .error "TypeError" :=
  claim_C10_event_branch_type_error 0 2 false schedWeekendOnly evFix 61200
    (by norm_num [evFix]) (by norm_num [evFix]) rfl

end HVAC
